import Mathlib

/-!
Verification development for the spa-server repository (a small Go HTTP
server that serves a single-page application, with optional TLS and
certificate hot-reload).

The shallow embedding models:
  * Go's `path/filepath` cleaning (`filepath.Clean`), `filepath.Join` and
    `filepath.Abs` at the level of path components (Unix rules);
  * `spaHandler.ServeHTTP` (main.go lines 33-61, identical in the two
    other variants of the file);
  * the `/ping` route and the gorilla-mux routing order (main.go 179-191);
  * the shutdown-deadline contexts of the three variants of `main`;
  * the certificate-renewal callbacks and the `serve` helper;
  * the signal registration and listener-error handling of each variant.
-/

namespace SpaServer

/-- A Unix path, split at `/`: `rooted` records a leading slash, `comps`
the (possibly empty or special) components between the slashes.
`⟨true, ["", "a", ".."]⟩` is the parse of `"//a/.."`. -/
structure GoPath where
  rooted : Bool
  comps : List String
deriving DecidableEq, Repr

/-- The components that `filepath.Clean` treats specially. -/
def isSpecial (c : String) : Bool := c = "" || c = "." || c = ".."

/-- One step of Go `filepath.Clean`'s element loop (Unix), on a reversed
output stack `acc`: empty and `.` components are dropped; `..` pops the
last real component, is dropped at the root of a rooted path, and is
kept at the head of a relative path. -/
def cleanStep (rooted : Bool) (acc : List String) (c : String) : List String :=
  if c = "" || c = "." then acc
  else if c = ".." then
    match acc with
    | [] => if rooted then [] else [".."]
    | a :: as => if a = ".." then ".." :: a :: as else as
  else c :: acc

/-- The element loop of Go `filepath.Clean` over all components. -/
def cleanStack (rooted : Bool) : List String → List String → List String
  | acc, [] => acc
  | acc, c :: rest => cleanStack rooted (cleanStep rooted acc c) rest

/-- The cleaned component list of Go `filepath.Clean`. -/
def cleanComps (rooted : Bool) (cs : List String) : List String :=
  (cleanStack rooted [] cs).reverse

/-- Go `filepath.Clean` on a parsed path. -/
def cleanGo (p : GoPath) : GoPath :=
  ⟨p.rooted, cleanComps p.rooted p.comps⟩

/-- Whether the path prints as the empty string (Go `Join` skips empty
elements). -/
def isEmptyPath (p : GoPath) : Bool :=
  !p.rooted && (decide (p.comps = []) || decide (p.comps = [""]))

/-- Go `filepath.Join a b = Clean(a + "/" + b)`, with empty elements
skipped as in the Go implementation. -/
def goJoin (a b : GoPath) : GoPath :=
  if isEmptyPath a then cleanGo b
  else cleanGo ⟨a.rooted, a.comps ++ b.comps⟩

/-- Go `filepath.Abs`: a rooted path is just cleaned; a relative path is
joined to the working directory, whose lookup (`os.Getwd`) can fail —
the only failure mode of `Abs`. -/
def goAbs (getwd : Option GoPath) (p : GoPath) : Option GoPath :=
  if p.rooted then some (cleanGo p)
  else getwd.map fun wd => goJoin wd p

/-- Parse a path string into its components (presentation only; theorems
work on `GoPath` directly). -/
def parsePath (s : String) : GoPath :=
  ⟨s.startsWith "/", s.splitOn "/"⟩

/-- `spaHandler` (main.go 24-27): the static directory and the index file
path within it. -/
structure spaHandler where
  staticPath : GoPath
  indexPath : GoPath
deriving DecidableEq

/-- Result of `os.Stat` as the handler distinguishes it (main.go 47-57):
success, `os.IsNotExist`, or any other error. -/
inductive StatResult
  | ok
  | notFound
  | otherError
deriving DecidableEq, Repr

/-- The parts of the operating system the handler consults: `os.Stat` and
`os.Getwd` (the latter is what makes `filepath.Abs` fallible). -/
structure Fs where
  stat : GoPath → StatResult
  getwd : Option GoPath

/-- The four ways `spaHandler.ServeHTTP` can respond (main.go 33-61):
400 on `filepath.Abs` failure, `http.ServeFile` of a concrete path for
the index fallback, 500 on a non-not-found `os.Stat` error, and
`http.FileServer(http.Dir(staticPath))` on the original URL path. -/
inductive SpaResponse
  | badRequest
  | serveFileAt (p : GoPath)
  | internalError
  | fileServer (dir : GoPath) (urlPath : GoPath)
deriving DecidableEq

/-- `spaHandler.ServeHTTP` (main.go 33-61): normalize the URL path with
`filepath.Abs` (400 on failure), join it to the static root, `os.Stat`
the result; not-found serves the index file, any other stat error is a
500, and success hands the request to `http.FileServer`. -/
def ServeHTTP (fs : Fs) (h : spaHandler) (urlPath : GoPath) : SpaResponse :=
  match goAbs fs.getwd urlPath with
  | none => .badRequest
  | some p =>
    match fs.stat (goJoin h.staticPath p) with
    | .notFound => .serveFileAt (goJoin h.staticPath h.indexPath)
    | .otherError => .internalError
    | .ok => .fileServer h.staticPath urlPath

/-- The path the handler stats: `Join(staticPath, Abs(urlPath))`
(main.go 35-44), `none` when `Abs` fails. -/
def resolvedServePath (fs : Fs) (h : spaHandler) (urlPath : GoPath) :
    Option GoPath :=
  (goAbs fs.getwd urlPath).map fun p => goJoin h.staticPath p

/-- The file `http.FileServer(http.Dir(dir))` serves for a URL path: the
net/http file server prepends a slash and cleans the path before joining
it under the directory. -/
def fileServerResolve (dir urlPath : GoPath) : GoPath :=
  goJoin dir (cleanGo ⟨true, urlPath.comps⟩)

/-- Every filesystem path a `SpaResponse` serves content from. -/
def respFilePaths : SpaResponse → List GoPath
  | .badRequest => []
  | .internalError => []
  | .serveFileAt q => [q]
  | .fileServer dir up => [fileServerResolve dir up]

/-- `q` lies inside the directory `root`: the cleaned root's components
are a prefix of `q`'s, and everything below the root is a plain name
(no `..`, `.` or empty component that could escape). -/
def withinDir (root q : GoPath) : Bool :=
  (cleanGo root).comps.isPrefixOf q.comps &&
    ((q.comps.drop (cleanGo root).comps.length).all fun c => !isSpecial c)

lemma isPrefixOf_append_self (l ys : List String) :
    l.isPrefixOf (l ++ ys) = true := by
  induction l with
  | nil => simp [List.isPrefixOf]
  | cons a l ih => simp [List.isPrefixOf, ih]

lemma cleanStack_append (r : Bool) (xs ys : List String) :
    ∀ acc, cleanStack r acc (xs ++ ys) = cleanStack r (cleanStack r acc xs) ys := by
  induction xs with
  | nil => intro acc; rfl
  | cons c rest ih => intro acc; exact ih (cleanStep r acc c)

lemma cleanStep_of_good (r : Bool) (acc : List String) (c : String)
    (hc : isSpecial c = false) : cleanStep r acc c = c :: acc := by
  simp only [isSpecial, Bool.or_eq_false_iff, decide_eq_false_iff_not] at hc
  simp [cleanStep, hc.1.1, hc.1.2, hc.2]

lemma cleanStack_of_good (r : Bool) (ys : List String)
    (hys : ∀ c ∈ ys, isSpecial c = false) :
    ∀ acc, cleanStack r acc ys = ys.reverse ++ acc := by
  induction ys with
  | nil => intro acc; rfl
  | cons c rest ih =>
    intro acc
    have hc : isSpecial c = false := hys c (by simp)
    show cleanStack r (cleanStep r acc c) rest = (c :: rest).reverse ++ acc
    rw [cleanStep_of_good r acc c hc,
      ih (fun x hx => hys x (by simp [hx])) (c :: acc)]
    simp

lemma good_cleanStep (acc : List String) (c : String)
    (hacc : ∀ x ∈ acc, isSpecial x = false) :
    ∀ x ∈ cleanStep true acc c, isSpecial x = false := by
  intro x hx
  by_cases h1 : (c = "" || c = ".") = true
  · unfold cleanStep at hx
    rw [if_pos h1] at hx
    exact hacc x hx
  · by_cases h2 : c = ".."
    · match acc, hacc with
      | [], _ =>
        unfold cleanStep at hx
        rw [if_neg h1, if_pos h2] at hx
        simp at hx
      | a :: as, hacc =>
        have ha : isSpecial a = false := hacc a (by simp)
        have hane : a ≠ ".." := by
          intro hh
          rw [hh] at ha
          simp [isSpecial] at ha
        unfold cleanStep at hx
        rw [if_neg h1, if_pos h2] at hx
        have hx' : x ∈ (if a = ".." then ".." :: a :: as else as) := hx
        rw [if_neg hane] at hx'
        exact hacc x (by simp [hx'])
    · unfold cleanStep at hx
      rw [if_neg h1, if_neg h2] at hx
      rcases List.mem_cons.mp hx with h | h
      · subst h
        simp only [Bool.or_eq_true, decide_eq_true_eq, not_or] at h1
        simp [isSpecial, h1.1, h1.2, h2]
      · exact hacc x h

lemma good_cleanStack (cs : List String) :
    ∀ acc, (∀ x ∈ acc, isSpecial x = false) →
      ∀ x ∈ cleanStack true acc cs, isSpecial x = false := by
  induction cs with
  | nil => intro acc hacc x hx; exact hacc x hx
  | cons c rest ih =>
    intro acc hacc x hx
    exact ih (cleanStep true acc c) (good_cleanStep acc c hacc) x hx

lemma good_cleanComps (cs : List String) :
    ∀ x ∈ cleanComps true cs, isSpecial x = false := by
  intro x hx
  exact good_cleanStack cs [] (by simp) x (List.mem_reverse.mp hx)

lemma cleanComps_append_good (r : Bool) (xs ys : List String)
    (hys : ∀ c ∈ ys, isSpecial c = false) :
    cleanComps r (xs ++ ys) = cleanComps r xs ++ ys := by
  unfold cleanComps
  rw [cleanStack_append r xs ys [], cleanStack_of_good r ys hys,
    List.reverse_append, List.reverse_reverse]

lemma cleanComps_of_good (r : Bool) (cs : List String)
    (h : ∀ c ∈ cs, isSpecial c = false) : cleanComps r cs = cs := by
  unfold cleanComps
  rw [cleanStack_of_good r cs h []]
  simp

lemma cleanGo_comps_empty (root : GoPath) (he : isEmptyPath root = true) :
    (cleanGo root).comps = [] := by
  simp only [isEmptyPath, Bool.and_eq_true, Bool.not_eq_true',
    Bool.or_eq_true, decide_eq_true_eq] at he
  rcases he.2 with h | h <;> simp [cleanGo, cleanComps, cleanStack, cleanStep, h]

lemma withinDir_goJoin (root q : GoPath)
    (hq : ∀ c ∈ q.comps, isSpecial c = false) :
    withinDir root (goJoin root q) = true := by
  unfold goJoin
  by_cases he : isEmptyPath root = true
  · rw [if_pos he]
    unfold withinDir
    rw [cleanGo_comps_empty root he]
    have hcq : (cleanGo q).comps = q.comps := cleanComps_of_good q.rooted q.comps hq
    simp only [hcq, List.isPrefixOf, List.length_nil, List.drop_zero,
      Bool.true_and, List.all_eq_true, Bool.not_eq_true']
    exact hq
  · rw [if_neg he]
    unfold withinDir cleanGo
    simp only
    rw [cleanComps_append_good root.rooted root.comps q.comps hq]
    rw [isPrefixOf_append_self, List.drop_left]
    simp only [Bool.true_and, List.all_eq_true, Bool.not_eq_true']
    exact hq

lemma goAbs_good (getwd : Option GoPath) (p a : GoPath)
    (hwd : ∀ wd, getwd = some wd → wd.rooted = true)
    (ha : goAbs getwd p = some a) :
    ∀ c ∈ a.comps, isSpecial c = false := by
  unfold goAbs at ha
  by_cases hp : p.rooted = true
  · rw [if_pos hp] at ha
    cases ha
    intro c hc
    simp only [cleanGo] at hc
    rw [hp] at hc
    exact good_cleanComps p.comps c hc
  · rw [if_neg hp] at ha
    match hg : getwd with
    | none => exact Option.noConfusion ha
    | some wd =>
      simp only [Option.map_some', Option.some.injEq] at ha
      have hwdr : wd.rooted = true := hwd wd rfl
      have hne : isEmptyPath wd = false := by
        simp [isEmptyPath, hwdr]
      rw [← ha]
      unfold goJoin
      rw [if_neg (by simp [hne])]
      intro c hc
      refine good_cleanComps (wd.comps ++ p.comps) c ?_
      simpa [cleanGo, hwdr] using hc

lemma ServeHTTP_abs_none (fs : Fs) (h : spaHandler) (p : GoPath)
    (hab : goAbs fs.getwd p = none) :
    ServeHTTP fs h p = .badRequest := by
  unfold ServeHTTP
  rw [hab]

lemma ServeHTTP_abs_some (fs : Fs) (h : spaHandler) (p a : GoPath)
    (hab : goAbs fs.getwd p = some a) :
    ServeHTTP fs h p =
      match fs.stat (goJoin h.staticPath a) with
      | .notFound => .serveFileAt (goJoin h.staticPath h.indexPath)
      | .otherError => .internalError
      | .ok => .fileServer h.staticPath p := by
  unfold ServeHTTP
  rw [hab]

/-- C1: for every request path, the path the handler resolves — and every
path a response actually serves content from — lies within the configured
static root directory (traversal sequences cannot escape it). The
hypotheses say only that `os.Getwd`, when it succeeds, returns an
absolute path, and that the configured index file name (`"index.html"`
in `makeServer`) is a plain file name. -/
theorem C1_traversal_safe (fs : Fs) (h : spaHandler) (p : GoPath)
    (hwd : ∀ wd, fs.getwd = some wd → wd.rooted = true)
    (hidx : ∀ c ∈ h.indexPath.comps, isSpecial c = false) :
    (∀ r, resolvedServePath fs h p = some r → withinDir h.staticPath r = true) ∧
    ∀ q, q ∈ respFilePaths (ServeHTTP fs h p) → withinDir h.staticPath q = true := by
  constructor
  · intro r hr
    unfold resolvedServePath at hr
    match hab : goAbs fs.getwd p with
    | none =>
      rw [hab] at hr
      exact Option.noConfusion hr
    | some a =>
      rw [hab] at hr
      simp only [Option.map_some', Option.some.injEq] at hr
      rw [← hr]
      exact withinDir_goJoin h.staticPath a (goAbs_good fs.getwd p a hwd hab)
  · intro q hq
    match hab : goAbs fs.getwd p with
    | none =>
      rw [ServeHTTP_abs_none fs h p hab] at hq
      simp [respFilePaths] at hq
    | some a =>
      rw [ServeHTTP_abs_some fs h p a hab] at hq
      match hst : fs.stat (goJoin h.staticPath a) with
      | .notFound =>
        rw [hst] at hq
        simp only [respFilePaths, List.mem_singleton] at hq
        rw [hq]
        exact withinDir_goJoin h.staticPath h.indexPath hidx
      | .otherError =>
        rw [hst] at hq
        simp [respFilePaths] at hq
      | .ok =>
        rw [hst] at hq
        simp only [respFilePaths, List.mem_singleton] at hq
        rw [hq]
        unfold fileServerResolve
        refine withinDir_goJoin h.staticPath _ ?_
        intro c hc
        simp only [cleanGo] at hc
        exact good_cleanComps p.comps c hc

/-- The handler of `makeServer` (main.go 187-190): static root `"www"`
used as a concrete instance, index file `"index.html"`. -/
def h0 : spaHandler :=
  ⟨⟨false, ["www"]⟩, ⟨false, ["index.html"]⟩⟩

/-- A filesystem were every path exists but the working directory is
unavailable. -/
def fsOkNoWd : Fs := ⟨fun _ => .ok, none⟩

/-- A filesystem where no path exists. -/
def fsAllMissing : Fs := ⟨fun _ => .notFound, none⟩

/-- C1 witness: the traversal request `/../../etc/passwd` resolves to
`www/etc/passwd`, inside the root. -/
theorem C1_witness :
    withinDir h0.staticPath (⟨false, ["www", "etc", "passwd"]⟩ : GoPath) = true :=
  (C1_traversal_safe fsOkNoWd h0 ⟨true, ["", "..", "..", "etc", "passwd"]⟩
      (fun _ hw => Option.noConfusion hw) (by decide)).1
    ⟨false, ["www", "etc", "passwd"]⟩ (by decide)

/-- C2 (amended): the handler's response is determined by `os.Stat` on the
resolved path — success hands the request to the static file server
(which serves the very path that was statted, for rooted URL paths),
not-found serves the index file, any other stat error is a 500 — and a
`filepath.Abs` failure is a 400 Bad Request, not a 500. -/
theorem C2_branches (fs : Fs) (h : spaHandler) (p r : GoPath)
    (hr : resolvedServePath fs h p = some r) :
    (fs.stat r = .ok → ServeHTTP fs h p = .fileServer h.staticPath p ∧
      (p.rooted = true → fileServerResolve h.staticPath p = r)) ∧
    (fs.stat r = .notFound →
      ServeHTTP fs h p = .serveFileAt (goJoin h.staticPath h.indexPath)) ∧
    (fs.stat r = .otherError → ServeHTTP fs h p = .internalError) ∧
    ∀ q, resolvedServePath fs h q = none → ServeHTTP fs h q = .badRequest := by
  unfold resolvedServePath at hr
  match hab : goAbs fs.getwd p with
  | none =>
    rw [hab] at hr
    exact Option.noConfusion hr
  | some a =>
    rw [hab] at hr
    simp only [Option.map_some', Option.some.injEq] at hr
    refine ⟨?_, ?_, ?_, ?_⟩
    · intro hst
      rw [← hr] at hst
      constructor
      · rw [ServeHTTP_abs_some fs h p a hab, hst]
      · intro hp
        have hpa : a = cleanGo p := by
          unfold goAbs at hab
          rw [if_pos hp] at hab
          exact (Option.some.injEq _ _ ▸ hab).symm
        unfold fileServerResolve
        rw [← hr, hpa]
        cases p with
        | mk rooted comps =>
          simp only at hp
          rw [hp]
    · intro hst
      rw [← hr] at hst
      rw [ServeHTTP_abs_some fs h p a hab, hst]
    · intro hst
      rw [← hr] at hst
      rw [ServeHTTP_abs_some fs h p a hab, hst]
    · intro q hq
      unfold resolvedServePath at hq
      match hab' : goAbs fs.getwd q with
      | none => exact ServeHTTP_abs_none fs h q hab'
      | some b =>
        rw [hab'] at hq
        exact Option.noConfusion hq

/-- C2 counterexample to the claim as stated: when path resolution
(`filepath.Abs`) fails, the handler answers 400 Bad Request (main.go
36-41), not the server error (500) the claim asserts. -/
theorem C2_counterexample :
    ServeHTTP fsOkNoWd h0 ⟨false, ["app"]⟩ = SpaResponse.badRequest ∧
    SpaResponse.badRequest ≠ SpaResponse.internalError := by
  exact ⟨rfl, by decide⟩

/-- C2 witness: a rooted path that does not exist is answered with the
index file. -/
theorem C2_witness :
    ServeHTTP fsAllMissing h0 ⟨true, ["", "missing"]⟩ =
      SpaResponse.serveFileAt (goJoin h0.staticPath h0.indexPath) :=
  (C2_branches fsAllMissing h0 ⟨true, ["", "missing"]⟩
      ⟨false, ["www", "missing"]⟩ (by decide)).2.1 (by decide)

/-- A Go `context.WithTimeout` context: its absolute deadline is the
creation time plus the timeout (all times in seconds since process
start). -/
structure TimeoutCtx where
  createdAt : Nat
  timeoutSec : Nat
deriving DecidableEq, Repr

/-- Absolute deadline of the context. -/
def TimeoutCtx.deadline (c : TimeoutCtx) : Nat := c.createdAt + c.timeoutSec

/-- The budget the context still grants at time `t` (0 once expired). -/
def TimeoutCtx.remainingAt (c : TimeoutCtx) (t : Nat) : Nat := c.deadline - t

/-- Default of the `graceful-timeout` flag: `time.Second*15` (main.go
96-101, identical in the variants). -/
def gracefulTimeoutDefaultSec : Nat := 15

/-- main.go 262: the shutdown context is created right after the signal
is received, with the configured wait. -/
def mainGoShutdownCtx (wait sigTime : Nat) : TimeoutCtx := ⟨sigTime, wait⟩

/-- part_001 line 196: the shutdown context is created at program start
(time 0) with the configured wait, and consumed by `srv.Shutdown` at
line 252 only once a signal arrives. -/
def part1ShutdownCtx (wait : Nat) : TimeoutCtx := ⟨0, wait⟩

/-- part_002 line 188: created right after the signal, as in main.go. -/
def part2ShutdownCtx (wait sigTime : Nat) : TimeoutCtx := ⟨sigTime, wait⟩

/-- serve (main.go 142): the drain context used once the renewal context
is cancelled is hard-coded to 5 seconds, ignoring the configured wait. -/
def serveShutdownCtx (drainTime : Nat) : TimeoutCtx := ⟨drainTime, 5⟩

/-- C3: the claim is the intent (the flag's own help text promises the
configured graceful wait) and main.go and part_002 honour it, but the
part_001 variant creates the timeout context at program start, so with
the default 15-second wait a signal arriving at t = 20s finds the
context already expired: `Shutdown` begins with zero remaining budget.
The `serve` drain context is moreover hard-coded to 5 seconds. -/
theorem C3_deadline_not_from_shutdown_start :
    (part1ShutdownCtx gracefulTimeoutDefaultSec).remainingAt 20 = 0 ∧
    (mainGoShutdownCtx gracefulTimeoutDefaultSec 20).remainingAt 20 =
      gracefulTimeoutDefaultSec ∧
    (part2ShutdownCtx gracefulTimeoutDefaultSec 20).remainingAt 20 =
      gracefulTimeoutDefaultSec ∧
    (serveShutdownCtx 0).timeoutSec ≠ gracefulTimeoutDefaultSec := by
  decide

/-- main.go SSL-mode coordinator state: whether the single shared renewal
context has been cancelled, the renewal counter, and whether the `serve`
of the currently active server has initiated its shutdown. -/
structure RenewState where
  ctxCancelled : Bool
  numRenews : Nat
  activeShutdownInitiated : Bool
deriving DecidableEq, Repr

/-- The two callbacks simplecert invokes on the coordinator. -/
inductive RenewEvent
  | willRenew
  | didRenew
deriving DecidableEq, Repr

/-- serve (main.go 130-154) blocks on `ctx.Done()` and then shuts down
the server it was handed; a serve started on an already-cancelled
context therefore initiates that shutdown immediately. -/
def serveInitiatesShutdown (ctxCancelled : Bool) : Bool := ctxCancelled

/-- main.go: `WillRenewCertificate` (220-222) cancels the shared context,
so the `serve` of the active server begins its shutdown;
`DidRenewCertificate` (224-232) increments the counter, builds a new
server and starts `go serve(ctx, srv)` on the same, never-recreated
context. -/
def mainGoRenewStep : RenewState → RenewEvent → RenewState
  | s, .willRenew =>
    { s with ctxCancelled := true, activeShutdownInitiated := true }
  | s, .didRenew =>
    { ctxCancelled := s.ctxCancelled
      numRenews := s.numRenews + 1
      activeShutdownInitiated := serveInitiatesShutdown s.ctxCancelled }

/-- part_001: `WillRenewCertificate` (211-213) cancels the (shutdown
timeout) context, which no running listener watches, and
`DidRenewCertificate` (215-223) starts the new server with `serveTLS`,
which has no context and never shuts the server down. -/
def part1RenewStep : RenewState → RenewEvent → RenewState
  | s, .willRenew => { s with ctxCancelled := true }
  | s, .didRenew =>
    { ctxCancelled := s.ctxCancelled
      numRenews := s.numRenews + 1
      activeShutdownInitiated := false }

/-- The state at `serve(ctx, srv)` start (main.go 247): context live, no
renewals, active server serving. -/
def initialRenewState : RenewState := ⟨false, 0, false⟩

/-- C4: on the first renewal cycle, main.go's replacement server is shut
down as a side effect of the renewal itself — the spawned `serve`
receives the shared context that `WillRenewCertificate` cancelled and
that nothing ever recreates, so it initiates `Shutdown` of the fresh
server at once; the part_001 variant's `serveTLS` keeps the replacement
accepting connections. -/
theorem C4_replacement_shut_down_by_renewal :
    (mainGoRenewStep (mainGoRenewStep initialRenewState .willRenew)
        .didRenew).activeShutdownInitiated = true ∧
    (part1RenewStep (part1RenewStep initialRenewState .willRenew)
        .didRenew).activeShutdownInitiated = false := by
  decide

/-- What a goroutine does when its listener call returns an error. -/
inductive ErrAction
  | fatalExit
  | logOnly
  | ignore
deriving DecidableEq, Repr

/-- The errors the code distinguishes. -/
inductive GoErr
  | errServerClosed
  | bindFailure
  | otherFailure
deriving DecidableEq, Repr

/-- serve (main.go 131-135): a `ListenAndServeTLS` error other than
`http.ErrServerClosed` is `log.Fatalf` — logged and the process exits
nonzero. -/
def tlsListenerErrAction (e : GoErr) : ErrAction :=
  if e = .errServerClosed then .ignore else .fatalExit

/-- main.go 250-254 (non-SSL): a `ListenAndServe` error is only
`log.Println`-ed; the goroutine returns and the process keeps running. -/
def plainListenerErrAction (_e : GoErr) : ErrAction := .logOnly

/-- main.go 242: `go http.ListenAndServe(":80", ...)` — the redirect
listener's error is discarded without being logged. -/
def redirectListenerErrAction (_e : GoErr) : ErrAction := .ignore

/-- part_002 166-181: both the TLS and the plain listener goroutines only
`log.Println` their errors. -/
def part2ListenerErrAction (_e : GoErr) : ErrAction := .logOnly

/-- C5 counterexample to the claim as stated: the redirect listener's
failure is swallowed without being logged, and the non-SSL main
listener's failure is logged but does not terminate the process. -/
theorem C5_counterexample :
    redirectListenerErrAction .bindFailure = .ignore ∧
    ErrAction.ignore ≠ .logOnly ∧
    plainListenerErrAction .bindFailure = .logOnly ∧
    ErrAction.logOnly ≠ .fatalExit := by
  decide

/-- C5 (amended): only the TLS listener of `serve` treats a listener
error (other than `http.ErrServerClosed`) as fatal; the non-SSL main
listener (and every part_002 listener) logs and swallows it, and the
redirect-only listener's error is silently discarded. -/
theorem C5_listener_error_policy (e : GoErr)
    (he : e ≠ GoErr.errServerClosed) :
    tlsListenerErrAction e = .fatalExit ∧
    tlsListenerErrAction .errServerClosed = .ignore ∧
    plainListenerErrAction e = .logOnly ∧
    redirectListenerErrAction e = .ignore ∧
    part2ListenerErrAction e = .logOnly := by
  refine ⟨?_, rfl, rfl, rfl, rfl⟩
  unfold tlsListenerErrAction
  rw [if_neg he]

/-- C5 witness: a bind failure. -/
theorem C5_witness :
    tlsListenerErrAction GoErr.bindFailure = .fatalExit ∧
    tlsListenerErrAction .errServerClosed = .ignore ∧
    plainListenerErrAction GoErr.bindFailure = .logOnly ∧
    redirectListenerErrAction GoErr.bindFailure = .ignore ∧
    part2ListenerErrAction GoErr.bindFailure = .logOnly :=
  C5_listener_error_policy GoErr.bindFailure (by decide)

/-- What the tail of `main` does with the result of `srv.Shutdown`. -/
structure TermOutcome where
  loggedShutdownError : Bool
  loggedSuccess : Bool
  exitCode : Nat
deriving DecidableEq, Repr

/-- main.go 261-266: the `srv.Shutdown(ctx)` result is discarded; the
process logs "Shutting down..." and always exits 0. -/
def mainGoTermination (_e : Option GoErr) : TermOutcome := ⟨false, false, 0⟩

/-- part_001 252-261: `http.ErrServerClosed` is logged as success and the
process exits 0; any other non-nil error is logged and the process
exits 1; a nil error exits 0. -/
def part1Termination (e : Option GoErr) : TermOutcome :=
  match e with
  | some .errServerClosed => ⟨false, true, 0⟩
  | some _ => ⟨true, false, 1⟩
  | none => ⟨false, false, 0⟩

/-- part_002 188-193: like main.go, the result is discarded and the exit
code is always 0. -/
def part2Termination (_e : Option GoErr) : TermOutcome := ⟨false, false, 0⟩

/-- C6 counterexample to the claim as stated: in main.go a shutdown error
other than server-already-closed is neither logged nor reflected in the
exit code — the process exits 0. -/
theorem C6_counterexample :
    (mainGoTermination (some GoErr.otherFailure)).exitCode = 0 ∧
    (mainGoTermination (some GoErr.otherFailure)).loggedShutdownError
      = false := by
  decide

/-- C6 (amended): only the part_001 variant implements the claimed
policy — `ErrServerClosed` logged as success with exit 0, any other
error logged with exit 1; main.go and part_002 discard the shutdown
error and always exit 0. -/
theorem C6_termination_policy (e : GoErr)
    (he : e ≠ GoErr.errServerClosed) :
    part1Termination (some GoErr.errServerClosed) = ⟨false, true, 0⟩ ∧
    part1Termination (some e) = ⟨true, false, 1⟩ ∧
    mainGoTermination (some e) = ⟨false, false, 0⟩ ∧
    part2Termination (some e) = ⟨false, false, 0⟩ := by
  cases e with
  | errServerClosed => exact absurd rfl he
  | bindFailure => exact ⟨rfl, rfl, rfl, rfl⟩
  | otherFailure => exact ⟨rfl, rfl, rfl, rfl⟩

/-- C6 witness: an unexpected shutdown error. -/
theorem C6_witness :
    part1Termination (some GoErr.errServerClosed) = ⟨false, true, 0⟩ ∧
    part1Termination (some GoErr.otherFailure) = ⟨true, false, 1⟩ ∧
    mainGoTermination (some GoErr.otherFailure) = ⟨false, false, 0⟩ ∧
    part2Termination (some GoErr.otherFailure) = ⟨false, false, 0⟩ :=
  C6_termination_policy GoErr.otherFailure (by decide)

/-- The signals of interest. -/
inductive Sig
  | sigint
  | sighup
  | sigquit
  | sigterm
deriving DecidableEq, Repr

/-- main.go 257-258: `signal.Notify(c, os.Interrupt)` — SIGINT only. -/
def mainGoNotified : List Sig := [.sigint]

/-- part_001 247-248: `signal.Notify(c, syscall.SIGHUP, syscall.SIGINT,
syscall.SIGQUIT)`. -/
def part1Notified : List Sig := [.sighup, .sigint, .sigquit]

/-- part_002 183-184: `signal.Notify(c, os.Interrupt)` — SIGINT only. -/
def part2Notified : List Sig := [.sigint]

/-- A termination signal begins the graceful drain exactly when it was
registered with `signal.Notify`; an unregistered one keeps its default
disposition and terminates the process immediately. -/
def beginsGracefulDrain (notified : List Sig) (s : Sig) : Bool :=
  notified.contains s

/-- C7 counterexample to the claim as stated: main.go registers only
`os.Interrupt`, so SIGHUP and SIGQUIT do not begin the graceful drain
there. -/
theorem C7_counterexample :
    beginsGracefulDrain mainGoNotified .sighup = false ∧
    beginsGracefulDrain mainGoNotified .sigquit = false := by
  decide

/-- C7 (amended): in the part_001 variant each of SIGHUP, SIGINT and
SIGQUIT begins the graceful drain; in main.go and part_002 only SIGINT
does, the other two keeping their default disposition. -/
theorem C7_signal_registration :
    beginsGracefulDrain part1Notified .sighup = true ∧
    beginsGracefulDrain part1Notified .sigint = true ∧
    beginsGracefulDrain part1Notified .sigquit = true ∧
    beginsGracefulDrain mainGoNotified .sigint = true ∧
    beginsGracefulDrain mainGoNotified .sighup = false ∧
    beginsGracefulDrain mainGoNotified .sigquit = false ∧
    beginsGracefulDrain part2Notified .sigint = true ∧
    beginsGracefulDrain part2Notified .sighup = false ∧
    beginsGracefulDrain part2Notified .sigquit = false := by
  decide

/-- The fields of the `http.Server` that `makeServer` (main.go 179-201)
configures, apart from the TLS material. -/
structure ServerCfg where
  addr : String
  rootDir : String
  indexPath : String
  writeTimeoutSec : Nat
  readTimeoutSec : Nat
  idleTimeoutSec : Nat
  pingRoute : Bool
  corsWrapped : Bool
deriving DecidableEq, Repr

/-- makeServer (main.go 179-201): a mux router with the GET `/ping` route
and the SPA handler rooted at `rootDir` with index `"index.html"`, a
CORS wrapper, and the three constant timeouts (60, 60 and 120 seconds,
main.go 160-164 and 194-200). -/
def makeServer (rootDir addr : String) : ServerCfg :=
  { addr := addr
    rootDir := rootDir
    indexPath := "index.html"
    writeTimeoutSec := 60
    readTimeoutSec := 60
    idleTimeoutSec := 120
    pingRoute := true
    corsWrapped := true }

/-- A server together with the generation of the TLS material its
configuration hands out per handshake. -/
structure TlsServer where
  cfg : ServerCfg
  certGeneration : Nat
deriving DecidableEq, Repr

/-- The mutable state the SSL branch of `main` closes over: the renewal
counter and the current server. -/
structure SslLoopState where
  numRenews : Nat
  srv : TlsServer
deriving DecidableEq, Repr

/-- `cfg.DidRenewCertificate` (main.go 224-232): increments `numRenews`
by one, rebuilds the server with the identical
`makeServer(args.RootDir, addr)` call, installs the shared TLS config
and reloads the certificate (`certReloader.ReloadNow()`), which bumps
the TLS generation. -/
def didRenewCertificate (rootDir addr : String) (s : SslLoopState) :
    SslLoopState :=
  { numRenews := s.numRenews + 1
    srv := { cfg := makeServer rootDir addr
             certGeneration := s.srv.certGeneration + 1 } }

/-- C8: every `DidRenewCertificate` event increments the renewal counter
by exactly one and rebuilds the server from the original configuration
(same address — host and port —, root directory, handler construction
and read/write/idle timeouts); only the TLS material differs from the
outgoing server's. -/
theorem C8_renewal_frame (rootDir addr : String) (s : SslLoopState) :
    (didRenewCertificate rootDir addr s).numRenews = s.numRenews + 1 ∧
    (didRenewCertificate rootDir addr s).srv.cfg = makeServer rootDir addr ∧
    (didRenewCertificate rootDir addr s).srv.certGeneration ≠
      s.srv.certGeneration := by
  exact ⟨rfl, rfl, Nat.succ_ne_self _⟩

/-- C8 witness: one renewal from a freshly built server. -/
theorem C8_witness :
    (didRenewCertificate "www" "0.0.0.0:443"
        ⟨0, makeServer "www" "0.0.0.0:443", 0⟩).numRenews = 0 + 1 ∧
    (didRenewCertificate "www" "0.0.0.0:443"
        ⟨0, makeServer "www" "0.0.0.0:443", 0⟩).srv.cfg =
      makeServer "www" "0.0.0.0:443" ∧
    (didRenewCertificate "www" "0.0.0.0:443"
        ⟨0, makeServer "www" "0.0.0.0:443", 0⟩).srv.certGeneration ≠
      (⟨0, makeServer "www" "0.0.0.0:443", 0⟩ : SslLoopState).srv.certGeneration :=
  C8_renewal_frame "www" "0.0.0.0:443" ⟨0, makeServer "www" "0.0.0.0:443", 0⟩

/-- The literal payload of the `/ping` route (main.go 184). -/
def pongBody : String := "\x7b\"response\": \"pong\"\x7d"

/-- An HTTP request as the router sees it. -/
structure Request where
  method : String
  urlPath : GoPath
deriving DecidableEq

/-- A routed response: either the ping handler's literal write (with the
implicit 200 of a first `w.Write`) or the SPA handler's response. -/
inductive RouteResult
  | ping (status : Nat) (body : String)
  | spa (resp : SpaResponse)
deriving DecidableEq

/-- The parse of `"/ping"`. -/
def pingPath : GoPath := ⟨true, ["", "ping"]⟩

/-- The gorilla-mux router of makeServer (main.go 180-191): the `/ping`
route matches a GET for exactly that path; any other request falls
through to the `PathPrefix("/")` SPA handler. -/
def routerHandle (fs : Fs) (h : spaHandler) (r : Request) : RouteResult :=
  if r.urlPath = pingPath ∧ r.method = "GET" then .ping 200 pongBody
  else .spa (ServeHTTP fs h r.urlPath)

/-- C9: every GET request to `/ping` is answered 200 with exactly the
literal pong payload, independently of the filesystem and handler state,
so repeated calls return the identical response. -/
theorem C9_ping (fs fs2 : Fs) (h h2 : spaHandler) (r : Request)
    (hm : r.method = "GET") (hp : r.urlPath = pingPath) :
    routerHandle fs h r = .ping 200 pongBody ∧
    routerHandle fs h r = routerHandle fs2 h2 r := by
  unfold routerHandle
  rw [if_pos ⟨hp, hm⟩, if_pos ⟨hp, hm⟩]
  exact ⟨rfl, rfl⟩

/-- C9 witness: the concrete request GET `/ping` against two different
filesystems. -/
theorem C9_witness :
    routerHandle fsAllMissing h0 ⟨"GET", pingPath⟩ = .ping 200 pongBody ∧
    routerHandle fsAllMissing h0 ⟨"GET", pingPath⟩ =
      routerHandle fsOkNoWd h0 ⟨"GET", pingPath⟩ :=
  C9_ping fsAllMissing fsOkNoWd h0 h0 ⟨"GET", pingPath⟩ rfl rfl

/-- The bytes that finally go on the wire for a handler response, given
the filesystem. -/
inductive Outcome
  | clientError (status : Nat)
  | serverError (status : Nat)
  | notFoundPage (status : Nat)
  | fileContents (p : GoPath)
deriving DecidableEq

/-- What `http.ServeFile` (and the file server) does with a path: a
missing file is a plain `404 page not found` response, any other stat
failure an error response, and otherwise the file's contents. -/
def serveFileOutcome (fs : Fs) (p : GoPath) : Outcome :=
  match fs.stat p with
  | .notFound => .notFoundPage 404
  | .otherError => .serverError 500
  | .ok => .fileContents p

/-- The final outcome of a `SpaResponse`. -/
def responseOutcome (fs : Fs) : SpaResponse → Outcome
  | .badRequest => .clientError 400
  | .internalError => .serverError 500
  | .serveFileAt p => serveFileOutcome fs p
  | .fileServer dir up => serveFileOutcome fs (fileServerResolve dir up)

/-- C10: when the resolved request path does not exist and the index file
(`index.html` under the root) is itself absent, the fallback
`http.ServeFile` produces a 404 response, not index contents. -/
theorem C10_missing_index_404 (fs : Fs) (h : spaHandler) (p r : GoPath)
    (hr : resolvedServePath fs h p = some r)
    (hstat : fs.stat r = .notFound)
    (hidx : fs.stat (goJoin h.staticPath h.indexPath) = .notFound) :
    responseOutcome fs (ServeHTTP fs h p) = .notFoundPage 404 := by
  unfold resolvedServePath at hr
  match hab : goAbs fs.getwd p with
  | none =>
    rw [hab] at hr
    exact Option.noConfusion hr
  | some a =>
    rw [hab] at hr
    simp only [Option.map_some', Option.some.injEq] at hr
    rw [← hr] at hstat
    rw [ServeHTTP_abs_some fs h p a hab, hstat]
    show serveFileOutcome fs (goJoin h.staticPath h.indexPath) = _
    unfold serveFileOutcome
    rw [hidx]

/-- C10 witness: a filesystem with no files at all answers `/missing`
with a 404. -/
theorem C10_witness :
    responseOutcome fsAllMissing
        (ServeHTTP fsAllMissing h0 ⟨true, ["", "missing"]⟩) =
      Outcome.notFoundPage 404 :=
  C10_missing_index_404 fsAllMissing h0 ⟨true, ["", "missing"]⟩
    ⟨false, ["www", "missing"]⟩ (by decide) (by decide) (by decide)

end SpaServer

